import Mathlib

/-!
Verification development for the gdzone meeting-room booking backend
(`backend/server.js`). The definitions below are a shallow embedding of
the backend's room store, expiry engine, booking lifecycle handlers and
auto-release timer table; times are epoch milliseconds modelled as `Nat`,
JavaScript numeric request inputs are modelled as rationals (`parseInt`
truncates toward zero on decimally rendered numbers, and yields `NaN`,
modelled as `none`, on non-numeric input).
-/

namespace GdZone

/-- A persisted room record, as stored in `rooms.json`. Optional fields
model JavaScript properties that may be absent (`delete r.field`). -/
structure Room where
  id : Int
  name : String
  status : String
  bookedBy : Option String
  purpose : Option String
  endTime : Option Nat
  bookingCode : Option String
deriving Repr, DecidableEq

/-- The public projection of a room: `sanitizeRoom` strips `bookingCode`
via destructuring (`const { bookingCode, ...rest } = room`). -/
structure PublicRoom where
  id : Int
  name : String
  status : String
  bookedBy : Option String
  purpose : Option String
  endTime : Option Nat
deriving Repr, DecidableEq

def sanitizeRoom (r : Room) : PublicRoom :=
  { id := r.id, name := r.name, status := r.status, bookedBy := r.bookedBy,
    purpose := r.purpose, endTime := r.endTime }

/-- Reset a room to Available, clearing all occupancy fields — the body of
every expiry/release path in the source. -/
def clearRoom (r : Room) : Room :=
  { r with status := "Available", bookedBy := none, purpose := none,
           endTime := none, bookingCode := none }

/-- JavaScript truthiness of `r.endTime`: present and non-zero. -/
def endTimeTruthy (r : Room) : Bool :=
  match r.endTime with
  | some t => t != 0
  | none => false

/-- One room's step of `expireRoomsIfNeeded`: `if (r.endTime && now >= r.endTime)`
reset the room; the Bool is this room's contribution to `changed`. -/
def expireRoom (now : Nat) (r : Room) : Room × Bool :=
  match r.endTime with
  | some t => if t ≠ 0 ∧ t ≤ now then (clearRoom r, true) else (r, false)
  | none => (r, false)

/-- `expireRoomsIfNeeded(rooms)`: lazily expire every due room; the Bool is
the `changed` flag that decides whether the result is persisted. -/
def expireRoomsIfNeeded (now : Nat) (rooms : List Room) : List Room × Bool :=
  (rooms.map (fun r => (expireRoom now r).1), rooms.any (fun r => (expireRoom now r).2))

/-- The durable medium behind `rooms.json`: readable-and-parsable content,
a missing file, or unparsable content. -/
inductive Medium where
  | missing
  | unparsable
  | ok (rooms : List Room)
deriving Repr, DecidableEq

/-- `readRooms()`: parse the file, and on any failure return `[]`. -/
def readRooms : Medium → List Room
  | .ok rooms => rooms
  | .missing => []
  | .unparsable => []

/-- `writeRooms(rooms)`: rewrite the whole document. -/
def writeRooms (rooms : List Room) : Medium := .ok rooms

/-- Accumulate a decimal digit run into a number. -/
def digitsToNat (ds : List Char) : Nat :=
  ds.foldl (fun a c => a * 10 + (c.toNat - 48)) 0

/-- Parse the leading decimal-digit run; `none` when there is none. -/
def parseIntDigits (cs : List Char) : Option Int :=
  let ds := cs.takeWhile Char.isDigit
  if ds.isEmpty then none else some (digitsToNat ds : Int)

/-- `parseInt(x, 10)`: JavaScript coerces `x` to its string rendering and
parses an optional sign followed by the longest leading digit run,
yielding `NaN` (here `none`) when there is none — so `parseInt(3.7, 10)`
reads `"3.7"` and yields `3`. (Leading-whitespace skipping is omitted;
inputs are taken as already rendered.) -/
def jsParseInt (s : String) : Option Int :=
  match s.data with
  | '-' :: rest =>
    match parseIntDigits rest with
    | some n => some (-n)
    | none => none
  | '+' :: rest => parseIntDigits rest
  | cs => parseIntDigits cs

/-- JavaScript whitespace as far as `.trim()` is concerned (the common
cases: space, tab, newline, carriage return). -/
def isJsSpace (c : Char) : Bool :=
  c == ' ' || c == '\t' || c == '\n' || c == '\r'

/-- JS `String.prototype.trim()`: strip leading and trailing whitespace. -/
def jsTrim (s : String) : String :=
  String.mk (((s.data.dropWhile isJsSpace).reverse.dropWhile isJsSpace).reverse)

/-- Lowercase hexadecimal digit for a value below 16. -/
def hexChar (n : Nat) : Char :=
  if n < 10 then Char.ofNat (48 + n) else Char.ofNat (87 + n)

/-- Two lowercase hex digits of one byte. -/
def byteToHex (b : Nat) : List Char :=
  [hexChar (b / 16), hexChar (b % 16)]

/-- `crypto.randomBytes(4).toString("hex")` applied to the given bytes. -/
def bytesToHex (bytes : List Nat) : String :=
  String.mk (List.flatten (bytes.map byteToHex))

/-- An HTTP-shaped handler response: status code, message, and the
optional sanitized room / booking code of success payloads. -/
structure HttpResp where
  status : Nat
  message : String
  room : Option PublicRoom := none
  code : Option String := none
deriving Repr, DecidableEq

/-- Does a room match the (possibly NaN) parsed id? `rooms.find((r) => r.id === id)`
with `id = NaN` matches nothing. -/
def idMatch (idOpt : Option Int) (r : Room) : Bool :=
  match idOpt with
  | some i => r.id == i
  | none => false

/-- Replace the first match of `p` by its image under `f`: the in-place
mutation of the object returned by `rooms.find` within the list. -/
def setFirst (p : Room → Bool) (f : Room → Room) : List Room → List Room
  | [] => []
  | r :: rs => if p r then f r :: rs else r :: setFirst p f rs

/-- The occupancy update applied by `POST /api/book` to the found room:
`status = Occupied`, trimmed booker and purpose, `endTime = now +
duration*60*1000`, and the fresh booking code. -/
def bookedRoom (now : Nat) (duration : Int) (sn pu code : String) (r : Room) : Room :=
  { r with status := "Occupied", bookedBy := some (jsTrim sn),
           purpose := some (jsTrim pu),
           endTime := some (now + duration.toNat * 60 * 1000),
           bookingCode := some code }

/-- The update applied by `POST /api/room/:id/extend` to the found room:
`endTime += extraMinutes * 60 * 1000`. -/
def extendedRoom (extra : Int) (r : Room) : Room :=
  { r with endTime := some (r.endTime.getD 0 + extra.toNat * 60 * 1000) }

/-- `GET /api/rooms` (core part, QR rendering omitted as an I/O wrapper):
read, lazily expire (persisting when anything changed), and return the
sanitized rooms. -/
def listRoomsHandler (now : Nat) (m : Medium) : List PublicRoom × Medium :=
  let er := expireRoomsIfNeeded now (readRooms m)
  (er.1.map sanitizeRoom, if er.2 then writeRooms er.1 else m)

/-- `GET /api/room/:id`. -/
def getRoomHandler (now : Nat) (m : Medium) (idIn : String) : HttpResp × Medium :=
  let id := jsParseInt idIn
  let er := expireRoomsIfNeeded now (readRooms m)
  let m1 := if er.2 then writeRooms er.1 else m
  match er.1.find? (idMatch id) with
  | none => ({ status := 404, message := "Room not found" }, m1)
  | some room => ({ status := 200, message := "", room := some (sanitizeRoom room) }, m1)

/-- `POST /api/book`: validate `roomId`/`duration` then `studentName`/`purpose`,
expiry-checked read, find the room, reject Occupied, then occupy it with a
fresh code from the given 4 random bytes and persist. -/
def bookHandler (now : Nat) (bytes : List Nat) (m : Medium)
    (roomIdIn durationIn : String) (studentName purpose : Option String) :
    HttpResp × Medium :=
  match jsParseInt roomIdIn, jsParseInt durationIn with
  | some roomId, some duration =>
    if duration ≤ 0 then
      ({ status := 400, message := "Invalid roomId or duration" }, m)
    else
      match studentName, purpose with
      | some sn, some pu =>
        if jsTrim sn = "" ∨ jsTrim pu = "" then
          ({ status := 400, message := "Invalid studentName or purpose" }, m)
        else
          let er := expireRoomsIfNeeded now (readRooms m)
          let m1 := if er.2 then writeRooms er.1 else m
          match er.1.find? (idMatch (some roomId)) with
          | none => ({ status := 404, message := "Room not found" }, m1)
          | some room =>
            if room.status = "Occupied" then
              ({ status := 400, message := "Room already booked" }, m1)
            else
              let bkCode := bytesToHex bytes
              let occupy := bookedRoom now duration sn pu bkCode
              ({ status := 200,
                 message := "Room booked successfully! Save your booking code.",
                 room := some (sanitizeRoom (occupy room)), code := some bkCode },
               writeRooms (setFirst (idMatch (some roomId)) occupy er.1))
      | _, _ => ({ status := 400, message := "Invalid studentName or purpose" }, m)
  | _, _ => ({ status := 400, message := "Invalid roomId or duration" }, m)

/-- `POST /api/room/:id/release`. NOTE (faithful to the source): this
handler reads with `readRooms()` alone — no `expireRoomsIfNeeded` — so it
takes no `now` and acts on the stored record as-is. -/
def releaseHandler (m : Medium) (idIn : String) (bookingCodeIn : Option String) :
    HttpResp × Medium :=
  let id := jsParseInt idIn
  match bookingCodeIn with
  | none => ({ status := 400, message := "bookingCode required" }, m)
  | some bc =>
    if bc = "" then ({ status := 400, message := "bookingCode required" }, m)
    else
      let rooms := readRooms m
      match rooms.find? (idMatch id) with
      | none => ({ status := 404, message := "Room not found" }, m)
      | some room =>
        if room.status ≠ "Occupied" then
          ({ status := 400, message := "Room is not occupied" }, m)
        else if room.bookingCode ≠ some bc then
          ({ status := 403, message := "Invalid booking code" }, m)
        else
          ({ status := 200, message := "Room released successfully",
             room := some (sanitizeRoom (clearRoom room)) },
           writeRooms (setFirst (idMatch id) clearRoom rooms))

/-- `POST /api/room/:id/extend`: `bookingCode` presence, `extraMinutes`
validation, expiry-checked read, then not-occupied / wrong-code checks,
then `endTime += extraMinutes*60000` and persist. -/
def extendHandler (now : Nat) (m : Medium) (idIn : String)
    (bookingCodeIn : Option String) (extraIn : String) : HttpResp × Medium :=
  let id := jsParseInt idIn
  match bookingCodeIn with
  | none => ({ status := 400, message := "bookingCode required" }, m)
  | some bc =>
    if bc = "" then ({ status := 400, message := "bookingCode required" }, m)
    else
      match jsParseInt extraIn with
      | none => ({ status := 400, message := "extraMinutes must be a positive integer" }, m)
      | some extra =>
        if extra ≤ 0 then
          ({ status := 400, message := "extraMinutes must be a positive integer" }, m)
        else
          let er := expireRoomsIfNeeded now (readRooms m)
          let m1 := if er.2 then writeRooms er.1 else m
          match er.1.find? (idMatch id) with
          | none => ({ status := 404, message := "Room not found" }, m1)
          | some room =>
            if room.status ≠ "Occupied" ∨ ¬ endTimeTruthy room then
              ({ status := 400, message := "Room is not currently occupied" }, m1)
            else if room.bookingCode ≠ some bc then
              ({ status := 403, message := "Invalid booking code" }, m1)
            else
              let addTime := extendedRoom extra
              ({ status := 200,
                 message := "Extended by " ++ toString extra ++ " minutes",
                 room := some (sanitizeRoom (addTime room)) },
               writeRooms (setFirst (idMatch id) addTime er.1))

/-- A pending `setTimeout` installed by `scheduleAutoRelease`: its handle,
the room it targets, and the absolute instant it becomes due. -/
structure PTimer where
  handle : Nat
  roomId : Int
  firesAt : Nat
deriving Repr, DecidableEq

/-- Whole-process state: the durable medium, the `autoReleaseTimers` Map
(association list keyed by room id), the live pending timeouts, and the
next fresh timeout handle. -/
structure SysState where
  medium : Medium
  timerMap : List (Int × Nat)
  live : List PTimer
  nextHandle : Nat
deriving Repr, DecidableEq

/-- `autoReleaseTimers.get(k)` (also covering `.has(k)`). -/
def mapGet (k : Int) (m : List (Int × Nat)) : Option Nat :=
  (m.find? (fun e => e.1 == k)).map Prod.snd

/-- `autoReleaseTimers.delete(k)`. -/
def mapDelete (k : Int) (m : List (Int × Nat)) : List (Int × Nat) :=
  m.filter (fun e => e.1 != k)

/-- `autoReleaseTimers.set(k, v)`: overwrite the entry for `k`, else append. -/
def mapSet (k : Int) (v : Nat) : List (Int × Nat) → List (Int × Nat)
  | [] => [(k, v)]
  | e :: es => if e.1 == k then (k, v) :: es else e :: mapSet k v es

/-- `clearTimeout(h)`: a live timeout with that handle no longer fires.
(On the handle of the currently executing callback it is a no-op, which
this models too: that handle is no longer in `live`.) -/
def clearTimeoutLive (h : Nat) (live : List PTimer) : List PTimer :=
  live.filter (fun t => t.handle != h)

/-- Node.js clamps `setTimeout` delays above `2**31 - 1` ms to 1 ms. -/
def TIMEOUT_MAX : Nat := 2147483647

/-- `scheduleAutoRelease(roomId)`: cancel and drop any tracked timer for
the room, re-read the store (plain `readRooms`, no lazy expiry), and if
the room is Occupied with a truthy `endTime` either expire it immediately
(`delay <= 0`) or install a fresh timeout due after `delay` ms — clamped
per Node.js semantics when `delay` exceeds `TIMEOUT_MAX`. -/
def scheduleAutoRelease (now : Nat) (roomId : Int) (s : SysState) : SysState :=
  let s1 :=
    match mapGet roomId s.timerMap with
    | some h => { s with live := clearTimeoutLive h s.live,
                         timerMap := mapDelete roomId s.timerMap }
    | none => s
  let rooms := readRooms s1.medium
  match rooms.find? (idMatch (some roomId)) with
  | none => s1
  | some r =>
    if r.status ≠ "Occupied" ∨ ¬ endTimeTruthy r then s1
    else
      let delay : Int := (r.endTime.getD 0 : Int) - (now : Int)
      if delay ≤ 0 then
        { s1 with medium := writeRooms (setFirst (idMatch (some roomId)) clearRoom rooms) }
      else
        let fireDelay : Nat := if delay > (TIMEOUT_MAX : Int) then 1 else delay.toNat
        { s1 with live := s1.live ++ [⟨s1.nextHandle, roomId, now + fireDelay⟩],
                  timerMap := mapSet roomId s1.nextHandle s1.timerMap,
                  nextHandle := s1.nextHandle + 1 }

/-- The `setTimeout` callback of `scheduleAutoRelease` executing for timer
`t` at instant `now` (the runtime removes the fired timeout from the live
set first): re-read, and if the room is still Occupied with a truthy
`endTime`, either expire-and-persist (`now >= endTime`) or reschedule;
finally `autoReleaseTimers.delete(roomId)` unconditionally. -/
def timerFire (now : Nat) (t : PTimer) (s : SysState) : SysState :=
  let s1 := { s with live := s.live.filter (fun u => u.handle != t.handle) }
  let rooms := readRooms s1.medium
  let s2 :=
    match rooms.find? (idMatch (some t.roomId)) with
    | some cur =>
      if cur.status = "Occupied" ∧ endTimeTruthy cur then
        if cur.endTime.getD 0 ≤ now then
          { s1 with medium := writeRooms (setFirst (idMatch (some t.roomId)) clearRoom rooms) }
        else
          scheduleAutoRelease now t.roomId s1
      else s1
    | none => s1
  { s2 with timerMap := mapDelete t.roomId s2.timerMap }

/-- `POST /api/book` at process level: run the handler, and on the success
path `scheduleAutoRelease(roomId)` (success is exactly the 200 response). -/
def bookSys (now : Nat) (bytes : List Nat) (s : SysState)
    (roomIdIn durationIn : String) (studentName purpose : Option String) :
    HttpResp × SysState :=
  let hr := bookHandler now bytes s.medium roomIdIn durationIn studentName purpose
  let s1 := { s with medium := hr.2 }
  if hr.1.status = 200 then
    match jsParseInt roomIdIn with
    | some roomId => (hr.1, scheduleAutoRelease now roomId s1)
    | none => (hr.1, s1)
  else (hr.1, s1)

/-- `POST /api/room/:id/extend` at process level: handler, then on success
`scheduleAutoRelease(id)`. -/
def extendSys (now : Nat) (s : SysState) (idIn : String)
    (bookingCodeIn : Option String) (extraIn : String) : HttpResp × SysState :=
  let hr := extendHandler now s.medium idIn bookingCodeIn extraIn
  let s1 := { s with medium := hr.2 }
  if hr.1.status = 200 then
    match jsParseInt idIn with
    | some roomId => (hr.1, scheduleAutoRelease now roomId s1)
    | none => (hr.1, s1)
  else (hr.1, s1)

/-- `POST /api/room/:id/release` at process level: handler, then on
success cancel and drop the tracked timer if one exists. -/
def releaseSys (s : SysState) (idIn : String) (bookingCodeIn : Option String) :
    HttpResp × SysState :=
  let hr := releaseHandler s.medium idIn bookingCodeIn
  let s1 := { s with medium := hr.2 }
  if hr.1.status = 200 then
    match jsParseInt idIn with
    | some roomId =>
      match mapGet roomId s1.timerMap with
      | some h => (hr.1, { s1 with live := clearTimeoutLive h s1.live,
                                   timerMap := mapDelete roomId s1.timerMap })
      | none => (hr.1, s1)
    | none => (hr.1, s1)
  else (hr.1, s1)

/-- All four occupancy fields are present. -/
def occupiedAll (r : Room) : Prop :=
  r.bookedBy.isSome ∧ r.purpose.isSome ∧ r.endTime.isSome ∧ r.bookingCode.isSome

/-- No occupancy field is present. -/
def occupiedNone (r : Room) : Prop :=
  r.bookedBy = none ∧ r.purpose = none ∧ r.endTime = none ∧ r.bookingCode = none

/-- The co-presence invariant on one room record. -/
def roomInv (r : Room) : Prop :=
  (r.status = "Occupied" ↔ occupiedAll r) ∧ (r.status = "Available" ↔ occupiedNone r)

instance : DecidablePred roomInv := fun r => by
  unfold roomInv occupiedAll occupiedNone
  infer_instance

/-- The co-presence invariant over every persisted room. -/
def storeInv (m : Medium) : Prop := ∀ r ∈ readRooms m, roomInv r

instance : DecidablePred storeInv := fun m => by
  unfold storeInv
  infer_instance

/-- Two rooms agreeing on everything except possibly `bookingCode`. -/
def sameExceptCode (a b : Room) : Prop :=
  a.id = b.id ∧ a.name = b.name ∧ a.status = b.status ∧
  a.bookedBy = b.bookedBy ∧ a.purpose = b.purpose ∧ a.endTime = b.endTime

instance : ∀ a b, Decidable (sameExceptCode a b) := fun a b => by
  unfold sameExceptCode
  infer_instance

/-- A room whose booking lapsed at instant 1000 but whose record was not
yet lazily expired. -/
def staleRoom : Room :=
  ⟨1, "Alpha", "Occupied", some "Alice", some "study", some 1000, some "abcd1234"⟩

/-- A store holding just `staleRoom`. -/
def staleStore : Medium := .ok [staleRoom]

/-- An available room used as a concrete booking target. -/
def availRoom : Room := ⟨1, "Alpha", "Available", none, none, none, none⟩

/-- A store holding just `availRoom`. -/
def availStore : Medium := .ok [availRoom]

/-- An occupied room far from expiry (ends at 10000000). -/
def occRoom : Room :=
  ⟨2, "Beta", "Occupied", some "Bob", some "lab", some 10000000, some "00ff00ff"⟩

/-- A store holding `availRoom` and `occRoom`. -/
def mixedStore : Medium := .ok [availRoom, occRoom]

/-- Four sample random bytes whose hex rendering is `abcd1234`. -/
def sampleBytes : List Nat := [171, 205, 18, 52]

/-- Process state used in the clamped-timeout trace: one available room
with id 5, no timers. -/
def clampS0 : SysState := ⟨.ok [⟨5, "Room5", "Available", none, none, none, none⟩], [], [], 0⟩

/-- Book room 5 for 100000 minutes at t=1000: the 6000000000 ms delay
exceeds `TIMEOUT_MAX`, so Node clamps the timeout to fire at t=1001. -/
def clampS1 : SysState :=
  (bookSys 1000 sampleBytes clampS0 "5" "100000" (some "Alice") (some "study")).2

/-- The clamped timeout (handle 0) fires at t=1001, long before `endTime`:
the callback reschedules (installing handle 1) and then unconditionally
deletes the room's map entry, orphaning the live handle-1 timeout. -/
def clampS2 : SysState := timerFire 1001 ⟨0, 5, 1001⟩ clampS1

/-- Extend room 5 at t=1002: the schedule step finds no tracked timer to
cancel, so it installs handle 2 while orphaned handle 1 stays live. -/
def clampS3 : SysState := (extendSys 1002 clampS2 "5" (some "abcd1234") "10").2

lemma expireRoom_cases (now : Nat) (r : Room) :
    expireRoom now r = (r, false) ∨ expireRoom now r = (clearRoom r, true) := by
  unfold expireRoom
  cases r.endTime with
  | none => exact Or.inl rfl
  | some t =>
    by_cases h : t ≠ 0 ∧ t ≤ now
    · simp [h]
    · simp [h]

lemma expireRoom_clearRoom (now : Nat) (r : Room) :
    expireRoom now (clearRoom r) = (clearRoom r, false) := by
  unfold expireRoom clearRoom
  rfl

lemma expireRoom_idem (now : Nat) (r : Room) :
    expireRoom now (expireRoom now r).1 = ((expireRoom now r).1, false) := by
  rcases expireRoom_cases now r with h | h <;> rw [h]
  · exact h
  · exact expireRoom_clearRoom now r

/-- C7: lazy expiry is idempotent — applying `expireRoomsIfNeeded` to its
own output at the same instant returns that output unchanged with the
`changed` flag false, so the second application alters no room and
triggers no persistence. -/
theorem lazy_expiry_idempotent (now : Nat) (rooms : List Room) :
    expireRoomsIfNeeded now (expireRoomsIfNeeded now rooms).1 =
      ((expireRoomsIfNeeded now rooms).1, false) := by
  unfold expireRoomsIfNeeded
  simp only [List.map_map, List.any_map, Prod.mk.injEq]
  constructor
  · apply List.map_congr_left
    intro a _
    simp only [Function.comp_apply]
    rw [expireRoom_idem]
  · rw [List.any_eq_false]
    intro a _
    simp only [Function.comp_apply]
    simp [expireRoom_idem]

lemma sanitizeRoom_sameExceptCode {a b : Room} (h : sameExceptCode a b) :
    sanitizeRoom a = sanitizeRoom b := by
  obtain ⟨h1, h2, h3, h4, h5, h6⟩ := h
  unfold sanitizeRoom
  rw [h1, h2, h3, h4, h5, h6]

lemma clearRoom_sameExceptCode {a b : Room} (h : sameExceptCode a b) :
    sameExceptCode (clearRoom a) (clearRoom b) := by
  obtain ⟨h1, h2, -, -, -, -⟩ := h
  exact ⟨h1, h2, rfl, rfl, rfl, rfl⟩

lemma expireRoom_sameExceptCode {a b : Room} (now : Nat) (h : sameExceptCode a b) :
    sameExceptCode (expireRoom now a).1 (expireRoom now b).1 := by
  have h6 := h.2.2.2.2.2
  unfold expireRoom
  rw [h6]
  cases b.endTime with
  | none => exact h
  | some t =>
    dsimp only
    by_cases hc : t ≠ 0 ∧ t ≤ now
    · rw [if_pos hc, if_pos hc]
      exact clearRoom_sameExceptCode h
    · rw [if_neg hc, if_neg hc]
      exact h

/-- C6: booking-code secrecy — the `PublicRoom` projection is oblivious to
`bookingCode` (rooms differing only in their code project identically),
and the public listing's output is identical on stores whose rooms differ
only in their codes. -/
theorem public_outputs_hide_bookingCode :
    (∀ (r : Room) (c : Option String),
      sanitizeRoom { r with bookingCode := c } = sanitizeRoom r) ∧
    ∀ (now : Nat) (l₁ l₂ : List Room), List.Forall₂ sameExceptCode l₁ l₂ →
      (listRoomsHandler now (.ok l₁)).1 = (listRoomsHandler now (.ok l₂)).1 := by
  constructor
  · intro r c
    rfl
  · intro now l₁ l₂ h
    unfold listRoomsHandler
    simp only [readRooms]
    unfold expireRoomsIfNeeded
    simp only [List.map_map]
    induction h with
    | nil => rfl
    | cons ha _ ih =>
      simp only [List.map_cons, Function.comp_apply]
      rw [sanitizeRoom_sameExceptCode (expireRoom_sameExceptCode now ha)]
      exact congrArg _ ih

/-- C6 witness: two concrete one-room stores differing only in the room's
booking code produce the same public listing. -/
theorem public_outputs_hide_bookingCode_witness :
    sameExceptCode occRoom { occRoom with bookingCode := some "deadbeef" } ∧
    (listRoomsHandler 0 (.ok [occRoom])).1 =
      (listRoomsHandler 0 (.ok [{ occRoom with bookingCode := some "deadbeef" }])).1 := by
  refine ⟨by decide, ?_⟩
  exact public_outputs_hide_bookingCode.2 0 _ _
    (List.Forall₂.cons (by decide) List.Forall₂.nil)

/-- C1: evaluation at the failing input. At handling instant 2000 the
stored booking lapsed at 1000; the extend handler (whose read is
expiry-checked) correctly reports the Conflict "Room is not currently
occupied", but the release handler — which reads with plain `readRooms()`
and consults no clock at all — succeeds with 200 against the stale
Occupied record when the stale code matches, and reports 403 from the
stale `bookingCode` when it does not. -/
theorem release_skips_lazy_expiry_eval :
    (releaseHandler staleStore "1" (some "abcd1234")).1.status = 200 ∧
    (releaseHandler staleStore "1" (some "badc0de1")).1.status = 403 ∧
    (extendHandler 2000 staleStore "1" (some "abcd1234") "10").1 =
      { status := 400, message := "Room is not currently occupied" } := by
  decide

/-- C9: evaluation at the failing trace. Booking room 5 for 100000
minutes makes the timeout delay exceed `TIMEOUT_MAX`, so the timeout
fires (clamped) long before `endTime`; its callback reschedules a new
timeout and then unconditionally deletes the room's map entry, leaving
the rescheduled timeout live but untracked. The next extend therefore
cancels nothing, and two timeouts end up pending for room 5. -/
theorem duplicate_pending_timers_eval :
    (⟨0, 5, 1001⟩ : PTimer) ∈ clampS1.live ∧
    clampS2.live = [⟨1, 5, 1002⟩] ∧
    mapGet 5 clampS2.timerMap = none ∧
    clampS3.live = [⟨1, 5, 1002⟩, ⟨2, 5, 1003⟩] ∧
    (clampS3.live.filter (fun t => t.roomId == 5)).length = 2 := by
  decide

/-- C8 counterexample: a book request with the non-integer duration 3.7
is not rejected — `parseInt` truncates it to 3, the booking succeeds
(status 200) and the store is mutated. -/
theorem fractional_duration_accepted :
    (bookHandler 1000 sampleBytes availStore "1" "3.7"
        (some "Al") (some "study")).1.status = 200 ∧
    (bookHandler 1000 sampleBytes availStore "1" "3.7"
        (some "Al") (some "study")).2 ≠ availStore := by
  decide

/-- C8 as amended: whenever `parseInt` yields `NaN` or a non-positive
integer for `duration` (for book) or `extraMinutes` (for extend), the
request is rejected with status 400 before any store read or mutation —
the medium is returned untouched. (Fractional inputs whose truncation is
a positive integer, such as 3.7, are instead accepted as that integer.) -/
theorem nonpositive_duration_rejected_before_mutation
    (now : Nat) (bytes : List Nat) (m : Medium) (ridIn durIn idIn extraIn : String)
    (sn pu bcIn : Option String)
    (hdur : ∀ d, jsParseInt durIn = some d → d ≤ 0)
    (hext : ∀ e, jsParseInt extraIn = some e → e ≤ 0) :
    ((bookHandler now bytes m ridIn durIn sn pu).1.status = 400 ∧
      (bookHandler now bytes m ridIn durIn sn pu).2 = m) ∧
    ((extendHandler now m idIn bcIn extraIn).1.status = 400 ∧
      (extendHandler now m idIn bcIn extraIn).2 = m) := by
  constructor
  · rcases h1 : jsParseInt ridIn with - | rid <;>
      rcases h2 : jsParseInt durIn with - | d
    · simp [bookHandler, h1, h2]
    · simp [bookHandler, h1, h2]
    · simp [bookHandler, h1, h2]
    · have hd := hdur d h2
      simp [bookHandler, h1, h2, hd]
  · rcases bcIn with - | bc
    · simp [extendHandler]
    · by_cases hbc : bc = ""
      · simp [extendHandler, hbc]
      · rcases h3 : jsParseInt extraIn with - | e
        · simp [extendHandler, h3, hbc]
        · have he := hext e h3
          simp [extendHandler, h3, hbc, he]

/-- C8 witness: concrete rejected inputs — duration parses to 0, extend
minutes are non-numeric — leave a concrete store untouched with 400. -/
theorem nonpositive_duration_rejected_before_mutation_witness :
    ((bookHandler 1000 sampleBytes availStore "1" "0"
        (some "Al") (some "study")).1.status = 400 ∧
      (bookHandler 1000 sampleBytes availStore "1" "0"
        (some "Al") (some "study")).2 = availStore) ∧
    ((extendHandler 1000 availStore "1" (some "abcd1234") "soon").1.status = 400 ∧
      (extendHandler 1000 availStore "1" (some "abcd1234") "soon").2 = availStore) :=
  nonpositive_duration_rejected_before_mutation 1000 sampleBytes availStore
    "1" "0" "1" "soon" (some "Al") (some "study") (some "abcd1234")
    (fun d hd => by
      rw [show jsParseInt "0" = some 0 from by decide] at hd
      simp only [Option.some.injEq] at hd
      omega)
    (fun e he => by
      rw [show jsParseInt "soon" = none from by decide] at he
      exact absurd he (by simp))

/-- C10: fail-open reads — on an unreadable medium (missing file or
unparsable content) `readRooms` returns the empty collection, and book
and extend requests with otherwise-valid inputs on any room id report
NotFound (404 "Room not found"), leaving the medium untouched, rather
than surfacing a store error. -/
theorem unreadable_store_fails_open
    (now : Nat) (bytes : List Nat) (m : Medium)
    (ridIn durIn idIn extraIn : String) (rid d e : Int) (sn pu bc : String)
    (hm : m = .missing ∨ m = .unparsable)
    (hrid : jsParseInt ridIn = some rid) (hdur : jsParseInt durIn = some d) (hd : 0 < d)
    (hsn : jsTrim sn ≠ "") (hpu : jsTrim pu ≠ "")
    (hbc : bc ≠ "") (hext : jsParseInt extraIn = some e) (he : 0 < e) :
    readRooms m = [] ∧
    bookHandler now bytes m ridIn durIn (some sn) (some pu) =
      ({ status := 404, message := "Room not found" }, m) ∧
    extendHandler now m idIn (some bc) extraIn =
      ({ status := 404, message := "Room not found" }, m) := by
  have hread : readRooms m = [] := by
    rcases hm with h | h <;> rw [h] <;> rfl
  have hd' : ¬ d ≤ 0 := by omega
  have he' : ¬ e ≤ 0 := by omega
  refine ⟨hread, ?_, ?_⟩
  · simp [bookHandler, hrid, hdur, hsn, hpu, hread, expireRoomsIfNeeded, hd']
  · simp [extendHandler, hbc, hext, hread, expireRoomsIfNeeded, he']

/-- C10 witness: on the missing medium, a concrete valid book and a
concrete valid extend both report 404 and leave the medium missing. -/
theorem unreadable_store_fails_open_witness :
    readRooms Medium.missing = [] ∧
    bookHandler 50 sampleBytes .missing "1" "30" (some "Al") (some "study") =
      ({ status := 404, message := "Room not found" }, .missing) ∧
    extendHandler 50 .missing "2" (some "abcd1234") "10" =
      ({ status := 404, message := "Room not found" }, .missing) :=
  unreadable_store_fails_open 50 sampleBytes .missing "1" "30" "2" "10" 1 30 10
    "Al" "study" "abcd1234" (Or.inl rfl) (by decide) (by decide) (by decide)
    (by decide) (by decide) (by decide) (by decide) (by decide)

lemma clearRoom_id (r : Room) : (clearRoom r).id = r.id := rfl

lemma expireRoom_id (now : Nat) (r : Room) : ((expireRoom now r).1).id = r.id := by
  rcases expireRoom_cases now r with h | h
  · rw [h]
  · rw [h]
    rfl

lemma idMatch_expireRoom (now : Nat) (q : Option Int) (r : Room) :
    idMatch q ((expireRoom now r).1) = idMatch q r := by
  unfold idMatch
  cases q with
  | none => rfl
  | some i => rw [expireRoom_id]

lemma expire_find? (now : Nat) (q : Option Int) (l : List Room) :
    (expireRoomsIfNeeded now l).1.find? (idMatch q) =
      (l.find? (idMatch q)).map (fun r => (expireRoom now r).1) := by
  unfold expireRoomsIfNeeded
  induction l with
  | nil => rfl
  | cons a as ih =>
    simp only [List.map_cons]
    cases hq : idMatch q a with
    | true =>
      rw [List.find?_cons_of_pos _ (by rw [idMatch_expireRoom]; exact hq),
          List.find?_cons_of_pos _ hq]
      rfl
    | false =>
      rw [List.find?_cons_of_neg _ (by rw [idMatch_expireRoom]; simp [hq]),
          List.find?_cons_of_neg _ (by simp [hq])]
      exact ih

lemma find?_setFirst (p : Room → Bool) (f : Room → Room)
    (hpf : ∀ r, p (f r) = p r) (l : List Room) :
    (setFirst p f l).find? p = (l.find? p).map f := by
  induction l with
  | nil => rfl
  | cons a as ih =>
    unfold setFirst
    by_cases hq : p a = true
    · rw [if_pos hq, List.find?_cons_of_pos _ (by rw [hpf]; exact hq),
          List.find?_cons_of_pos _ hq]
      rfl
    · rw [if_neg hq, List.find?_cons_of_neg _ (by simpa using hq),
          List.find?_cons_of_neg _ (by simpa using hq)]
      exact ih

lemma expireRoom_of_endTime_none {r : Room} (now : Nat) (h : r.endTime = none) :
    expireRoom now r = (r, false) := by
  unfold expireRoom
  rw [h]

lemma expireRoom_of_not_due {r : Room} {t : Nat} (now : Nat)
    (h : r.endTime = some t) (hlt : now < t) :
    expireRoom now r = (r, false) := by
  unfold expireRoom
  rw [h]
  exact if_neg (by omega)

lemma endTimeTruthy_of_pos {r : Room} {t : Nat} (h : r.endTime = some t)
    (ht : 0 < t) : endTimeTruthy r = true := by
  have ht' : t ≠ 0 := by omega
  unfold endTimeTruthy
  rw [h]
  simpa using ht'

lemma idMatch_bookedRoom (q : Option Int) (now : Nat) (d : Int) (sn pu code : String)
    (r : Room) : idMatch q (bookedRoom now d sn pu code r) = idMatch q r := by
  unfold idMatch bookedRoom
  cases q <;> rfl

lemma idMatch_extendedRoom (q : Option Int) (e : Int) (r : Room) :
    idMatch q (extendedRoom e r) = idMatch q r := by
  unfold idMatch extendedRoom
  cases q <;> rfl

lemma idMatch_clearRoom (q : Option Int) (r : Room) :
    idMatch q (clearRoom r) = idMatch q r := by
  unfold idMatch clearRoom
  cases q <;> rfl

/-- The success path of `POST /api/book`, in full: response and persisted
store for a booking of an existing, non-Occupied, not-due room with valid
inputs. -/
lemma book_spec
    (now : Nat) (bytes : List Nat) (rooms : List Room) (ridIn durIn : String)
    (rid d : Int) (sn pu : String) (r : Room)
    (hrid : jsParseInt ridIn = some rid) (hdur : jsParseInt durIn = some d) (hd : 0 < d)
    (hsn : jsTrim sn ≠ "") (hpu : jsTrim pu ≠ "")
    (hfind : rooms.find? (idMatch (some rid)) = some r)
    (hend : r.endTime = none) (hstatus : r.status ≠ "Occupied") :
    bookHandler now bytes (.ok rooms) ridIn durIn (some sn) (some pu) =
      ({ status := 200, message := "Room booked successfully! Save your booking code.",
         room := some (sanitizeRoom (bookedRoom now d sn pu (bytesToHex bytes) r)),
         code := some (bytesToHex bytes) },
       writeRooms (setFirst (idMatch (some rid)) (bookedRoom now d sn pu (bytesToHex bytes))
         (expireRoomsIfNeeded now rooms).1)) := by
  have hfind' : (expireRoomsIfNeeded now rooms).1.find? (idMatch (some rid)) = some r := by
    rw [expire_find?, hfind, Option.map_some']
    rw [expireRoom_of_endTime_none now hend]
  simp only [bookHandler, hrid, hdur, readRooms]
  rw [if_neg (by omega)]
  rw [if_neg (by simp [hsn, hpu])]
  simp only [hfind']
  rw [if_neg hstatus]

/-- The success path of `POST /api/room/:id/extend`, in full. -/
lemma extend_spec
    (now : Nat) (rooms : List Room) (idIn extraIn : String)
    (rid e : Int) (bc : String) (r : Room) (t : Nat)
    (hid : jsParseInt idIn = some rid) (hbc : bc ≠ "")
    (hext : jsParseInt extraIn = some e) (he : 0 < e)
    (hfind : rooms.find? (idMatch (some rid)) = some r)
    (hstatus : r.status = "Occupied") (hend : r.endTime = some t) (hnow : now < t)
    (hcode : r.bookingCode = some bc) :
    extendHandler now (.ok rooms) idIn (some bc) extraIn =
      ({ status := 200, message := "Extended by " ++ toString e ++ " minutes",
         room := some (sanitizeRoom (extendedRoom e r)) },
       writeRooms (setFirst (idMatch (some rid)) (extendedRoom e)
         (expireRoomsIfNeeded now rooms).1)) := by
  have hfind' : (expireRoomsIfNeeded now rooms).1.find? (idMatch (some rid)) = some r := by
    rw [expire_find?, hfind, Option.map_some']
    rw [expireRoom_of_not_due now hend hnow]
  have htruthy : endTimeTruthy r = true := endTimeTruthy_of_pos hend (by omega)
  simp only [extendHandler, hid, hext, readRooms]
  rw [if_neg hbc]
  rw [if_neg (by omega)]
  simp only [hfind']
  rw [if_neg (by simp [hstatus, htruthy])]
  rw [if_neg (by simp [hcode])]

lemma extendedRoom_endTime {r : Room} {t : Nat} (e : Int) (h : r.endTime = some t) :
    extendedRoom e r = { r with endTime := some (t + e.toNat * 60 * 1000) } := by
  unfold extendedRoom
  rw [h]
  rfl

lemma hexChar_range (n : Nat) (h : n < 16) :
    ('a' ≤ hexChar n ∧ hexChar n ≤ 'f') ∨ ('0' ≤ hexChar n ∧ hexChar n ≤ '9') := by
  interval_cases n <;> decide

lemma bytesToHex_length (bytes : List Nat) :
    (bytesToHex bytes).length = 2 * bytes.length := by
  show (List.flatten (bytes.map byteToHex)).length = 2 * bytes.length
  induction bytes with
  | nil => rfl
  | cons b bs ih =>
    simp only [List.map_cons, List.flatten_cons, List.length_append, List.length_cons,
      byteToHex, List.length_nil, ih]
    omega

lemma bytesToHex_chars (bytes : List Nat) (hb : ∀ b ∈ bytes, b < 256) :
    ∀ c ∈ (bytesToHex bytes).data,
      ('a' ≤ c ∧ c ≤ 'f') ∨ ('0' ≤ c ∧ c ≤ '9') := by
  intro c hc
  rw [show (bytesToHex bytes).data = List.flatten (bytes.map byteToHex) from rfl] at hc
  rw [List.mem_flatten] at hc
  obtain ⟨l, hl, hcl⟩ := hc
  rw [List.mem_map] at hl
  obtain ⟨b, hbm, rfl⟩ := hl
  have hb' := hb b hbm
  unfold byteToHex at hcl
  rcases List.mem_cons.mp hcl with rfl | hcl'
  · exact hexChar_range _ (Nat.div_lt_of_lt_mul (by omega))
  · rcases List.mem_cons.mp hcl' with rfl | hnil
    · exact hexChar_range _ (Nat.mod_lt _ (by omega))
    · exact absurd hnil (List.not_mem_nil c)

/-- C3: book postcondition — on an existing Available room with valid
trimmed inputs and a positive integer duration, the handler answers 200
carrying the fresh code `bytesToHex bytes` (8 chars, all lowercase hex),
and persists the room as Occupied with the trimmed booker/purpose,
`endTime = now + duration*60000`, and that code. -/
theorem book_creates_valid_booking
    (now : Nat) (bytes : List Nat) (rooms : List Room) (ridIn durIn : String)
    (rid d : Int) (sn pu : String) (r : Room)
    (hrid : jsParseInt ridIn = some rid) (hdur : jsParseInt durIn = some d) (hd : 0 < d)
    (hsn : jsTrim sn ≠ "") (hpu : jsTrim pu ≠ "")
    (hfind : rooms.find? (idMatch (some rid)) = some r)
    (hstatus : r.status = "Available") (hend : r.endTime = none)
    (hlen : bytes.length = 4) (hbytes : ∀ b ∈ bytes, b < 256) :
    (bookHandler now bytes (.ok rooms) ridIn durIn (some sn) (some pu)).1.status = 200 ∧
    (bookHandler now bytes (.ok rooms) ridIn durIn (some sn) (some pu)).1.code =
      some (bytesToHex bytes) ∧
    (bytesToHex bytes).length = 8 ∧
    (∀ c ∈ (bytesToHex bytes).data,
      ('a' ≤ c ∧ c ≤ 'f') ∨ ('0' ≤ c ∧ c ≤ '9')) ∧
    (bookHandler now bytes (.ok rooms) ridIn durIn (some sn) (some pu)).2 =
      writeRooms (setFirst (idMatch (some rid))
        (bookedRoom now d sn pu (bytesToHex bytes)) (expireRoomsIfNeeded now rooms).1) ∧
    (readRooms (bookHandler now bytes (.ok rooms) ridIn durIn (some sn) (some pu)).2).find?
        (idMatch (some rid)) =
      some { r with status := "Occupied", bookedBy := some (jsTrim sn),
                    purpose := some (jsTrim pu),
                    endTime := some (now + d.toNat * 60 * 1000),
                    bookingCode := some (bytesToHex bytes) } := by
  have hbs := book_spec now bytes rooms ridIn durIn rid d sn pu r hrid hdur hd hsn hpu
    hfind hend (by rw [hstatus]; decide)
  have hfind' : (expireRoomsIfNeeded now rooms).1.find? (idMatch (some rid)) = some r := by
    rw [expire_find?, hfind, Option.map_some']
    rw [expireRoom_of_endTime_none now hend]
  refine ⟨by rw [hbs], by rw [hbs], by rw [bytesToHex_length, hlen],
    bytesToHex_chars bytes hbytes, by rw [hbs], ?_⟩
  rw [hbs]
  show (setFirst (idMatch (some rid)) (bookedRoom now d sn pu (bytesToHex bytes))
    (expireRoomsIfNeeded now rooms).1).find? (idMatch (some rid)) = _
  rw [find?_setFirst _ _ (idMatch_bookedRoom (some rid) now d sn pu (bytesToHex bytes)), hfind',
    Option.map_some']
  rfl

/-- C4: no lost extension — a valid extend adds exactly
`extraMinutes*60000` ms to the stored `endTime`; two successive extends
by 10 minutes leave `endTime` at the original plus 1200000 ms; and
booking for 10 minutes then extending by 5 leaves `endTime` exactly
900000 ms (15 minutes) after the booking instant. -/
theorem extend_adds_exact_minutes
    (now : Nat) (rooms : List Room) (idIn extraIn : String)
    (rid e : Int) (bc : String) (r : Room) (t : Nat)
    (hid : jsParseInt idIn = some rid) (hbc : bc ≠ "")
    (hext : jsParseInt extraIn = some e) (he : 0 < e)
    (hfind : rooms.find? (idMatch (some rid)) = some r)
    (hstatus : r.status = "Occupied") (hend : r.endTime = some t) (hnow : now < t)
    (hcode : r.bookingCode = some bc) :
    (readRooms (extendHandler now (.ok rooms) idIn (some bc) extraIn).2).find?
        (idMatch (some rid)) =
      some { r with endTime := some (t + e.toNat * 60 * 1000) } ∧
    (readRooms (extendHandler now
        (extendHandler now (.ok rooms) idIn (some bc) "10").2
        idIn (some bc) "10").2).find? (idMatch (some rid)) =
      some { r with endTime := some (t + 1200000) } ∧
    ∀ (nowB now2 : Nat) (bytes : List Nat) (roomsB : List Room)
      (ridBIn sn pu : String) (ridB : Int) (rB : Room),
      jsParseInt ridBIn = some ridB →
      jsTrim sn ≠ "" → jsTrim pu ≠ "" →
      roomsB.find? (idMatch (some ridB)) = some rB →
      rB.status = "Available" → rB.endTime = none →
      bytes.length = 4 →
      now2 < nowB + 600000 →
      (readRooms (extendHandler now2
          (bookHandler nowB bytes (.ok roomsB) ridBIn "10" (some sn) (some pu)).2
          ridBIn (some (bytesToHex bytes)) "5").2).find? (idMatch (some ridB)) =
        some { rB with status := "Occupied", bookedBy := some (jsTrim sn),
                       purpose := some (jsTrim pu),
                       endTime := some (nowB + 900000),
                       bookingCode := some (bytesToHex bytes) } := by
  have h10 : jsParseInt "10" = some 10 := by decide
  have h5 : jsParseInt "5" = some 5 := by decide
  have n10 : ((10 : Int)).toNat * 60 * 1000 = 600000 := by decide
  have hfind' : (expireRoomsIfNeeded now rooms).1.find? (idMatch (some rid)) = some r := by
    rw [expire_find?, hfind, Option.map_some', expireRoom_of_not_due now hend hnow]
  refine ⟨?_, ?_, ?_⟩
  · rw [extend_spec now rooms idIn extraIn rid e bc r t hid hbc hext he hfind
      hstatus hend hnow hcode]
    show (setFirst (idMatch (some rid)) (extendedRoom e)
      (expireRoomsIfNeeded now rooms).1).find? (idMatch (some rid)) = _
    rw [find?_setFirst _ _ (idMatch_extendedRoom (some rid) e), hfind',
      Option.map_some', extendedRoom_endTime e hend]
  · have hA := extend_spec now rooms idIn "10" rid 10 bc r t hid hbc h10 (by decide)
      hfind hstatus hend hnow hcode
    have hfindl1 : (setFirst (idMatch (some rid)) (extendedRoom 10)
        (expireRoomsIfNeeded now rooms).1).find? (idMatch (some rid)) =
        some (extendedRoom 10 r) := by
      rw [find?_setFirst _ _ (idMatch_extendedRoom (some rid) 10), hfind', Option.map_some']
    have hend2 : (extendedRoom 10 r).endTime = some (t + 600000) := by
      show some (r.endTime.getD 0 + (10 : Int).toNat * 60 * 1000) = some (t + 600000)
      rw [hend, n10]
      rfl
    have hB := extend_spec now (setFirst (idMatch (some rid)) (extendedRoom 10)
        (expireRoomsIfNeeded now rooms).1) idIn "10" rid 10 bc (extendedRoom 10 r)
        (t + 600000) hid hbc h10 (by decide) hfindl1 hstatus hend2 (by omega) hcode
    rw [hA]
    show (readRooms (extendHandler now (Medium.ok (setFirst (idMatch (some rid))
        (extendedRoom 10) (expireRoomsIfNeeded now rooms).1)) idIn (some bc) "10").2).find?
        (idMatch (some rid)) = _
    rw [hB]
    show (setFirst (idMatch (some rid)) (extendedRoom 10)
        (expireRoomsIfNeeded now (setFirst (idMatch (some rid)) (extendedRoom 10)
          (expireRoomsIfNeeded now rooms).1)).1).find? (idMatch (some rid)) = _
    rw [find?_setFirst _ _ (idMatch_extendedRoom (some rid) 10), expire_find?, hfindl1,
      Option.map_some', expireRoom_of_not_due now hend2 (by omega)]
    show some (extendedRoom 10 (extendedRoom 10 r)) = _
    have hfin : extendedRoom 10 (extendedRoom 10 r) =
        { r with endTime := some (t + 1200000) } := by
      rw [extendedRoom_endTime 10 hend2]
      have harith : t + 600000 + (10 : Int).toNat * 60 * 1000 = t + 1200000 := by
        omega
      rw [harith]
      rfl
    rw [hfin]
  · intro nowB now2 bytes roomsB ridBIn sn pu ridB rB hridB hsn hpu hfindB hstB hendB
      hlenB hnow2
    have hbk := book_spec nowB bytes roomsB ridBIn "10" ridB 10 sn pu rB hridB h10
      (by decide) hsn hpu hfindB hendB (by rw [hstB]; decide)
    have hfindB2 : (expireRoomsIfNeeded nowB roomsB).1.find? (idMatch (some ridB)) =
        some rB := by
      rw [expire_find?, hfindB, Option.map_some', expireRoom_of_endTime_none nowB hendB]
    have hfindlB : (setFirst (idMatch (some ridB))
        (bookedRoom nowB 10 sn pu (bytesToHex bytes))
        (expireRoomsIfNeeded nowB roomsB).1).find? (idMatch (some ridB)) =
        some (bookedRoom nowB 10 sn pu (bytesToHex bytes) rB) := by
      rw [find?_setFirst _ _ (idMatch_bookedRoom (some ridB) nowB 10 sn pu (bytesToHex bytes)), hfindB2,
        Option.map_some']
    have hcodelen : (bytesToHex bytes).length = 8 := by rw [bytesToHex_length, hlenB]
    have hbcne : bytesToHex bytes ≠ "" := by
      intro hEq
      rw [hEq] at hcodelen
      exact absurd hcodelen (by decide)
    have hendBk : (bookedRoom nowB 10 sn pu (bytesToHex bytes) rB).endTime =
        some (nowB + 600000) := by
      show some (nowB + (10 : Int).toNat * 60 * 1000) = some (nowB + 600000)
      rw [n10]
    have hB := extend_spec now2 (setFirst (idMatch (some ridB))
        (bookedRoom nowB 10 sn pu (bytesToHex bytes)) (expireRoomsIfNeeded nowB roomsB).1)
        ridBIn "5" ridB 5 (bytesToHex bytes)
        (bookedRoom nowB 10 sn pu (bytesToHex bytes) rB) (nowB + 600000)
        hridB hbcne h5 (by decide) hfindlB rfl hendBk hnow2 rfl
    rw [hbk]
    show (readRooms (extendHandler now2 (Medium.ok (setFirst (idMatch (some ridB))
        (bookedRoom nowB 10 sn pu (bytesToHex bytes))
        (expireRoomsIfNeeded nowB roomsB).1)) ridBIn (some (bytesToHex bytes)) "5").2).find?
        (idMatch (some ridB)) = _
    rw [hB]
    show (setFirst (idMatch (some ridB)) (extendedRoom 5)
        (expireRoomsIfNeeded now2 (setFirst (idMatch (some ridB))
          (bookedRoom nowB 10 sn pu (bytesToHex bytes))
          (expireRoomsIfNeeded nowB roomsB).1)).1).find? (idMatch (some ridB)) = _
    rw [find?_setFirst _ _ (idMatch_extendedRoom (some ridB) 5), expire_find?, hfindlB,
      Option.map_some', expireRoom_of_not_due now2 hendBk hnow2]
    show some (extendedRoom 5 (bookedRoom nowB 10 sn pu (bytesToHex bytes) rB)) = _
    have hfin : extendedRoom 5 (bookedRoom nowB 10 sn pu (bytesToHex bytes) rB) =
        { rB with status := "Occupied", bookedBy := some (jsTrim sn),
                  purpose := some (jsTrim pu), endTime := some (nowB + 900000),
                  bookingCode := some (bytesToHex bytes) } := by
      rw [extendedRoom_endTime 5 hendBk]
      have harith : nowB + 600000 + (5 : Int).toNat * 60 * 1000 = nowB + 900000 := by
        omega
      rw [harith]
      rfl
    rw [hfin]

/-- C3 witness: booking room 1 of a concrete one-room store for 30
minutes answers 200 with the 8-hex code of the sample bytes. -/
theorem book_creates_valid_booking_witness :
    List.find? (idMatch (some 1)) [availRoom] = some availRoom ∧
    (bookHandler 1000 sampleBytes (.ok [availRoom]) "1" "30"
      (some "Al") (some "study")).1.status = 200 ∧
    (bookHandler 1000 sampleBytes (.ok [availRoom]) "1" "30"
      (some "Al") (some "study")).1.code = some (bytesToHex sampleBytes) ∧
    (bytesToHex sampleBytes).length = 8 :=
  have h := book_creates_valid_booking 1000 sampleBytes [availRoom] "1" "30" 1 30
    "Al" "study" availRoom (by decide) (by decide) (by decide) (by decide) (by decide)
    (by decide) (by decide) (by decide) (by decide) (by decide)
  ⟨by decide, h.1, h.2.1, h.2.2.1⟩

/-- C4 witness: extending the concrete occupied room (endTime 1000) by 7
minutes at t=500 stores endTime 421000; two successive 10-minute extends
store endTime 1201000. -/
theorem extend_adds_exact_minutes_witness :
    List.find? (idMatch (some 1)) [staleRoom] = some staleRoom ∧
    (readRooms (extendHandler 500 (.ok [staleRoom]) "1" (some "abcd1234") "7").2).find?
        (idMatch (some 1)) = some { staleRoom with endTime := some 421000 } ∧
    (readRooms (extendHandler 500
        (extendHandler 500 (.ok [staleRoom]) "1" (some "abcd1234") "10").2
        "1" (some "abcd1234") "10").2).find? (idMatch (some 1)) =
      some { staleRoom with endTime := some 1201000 } :=
  have h := extend_adds_exact_minutes 500 [staleRoom] "1" "7" 1 7 "abcd1234" staleRoom
    1000 (by decide) (by decide) (by decide) (by decide) (by decide) (by decide)
    (by decide) (by decide) (by decide)
  ⟨by decide, h.1, h.2.1⟩

/-- C5: authorization precedence — a wrong booking code on a room that is
Occupied at handling time yields 403 Forbidden (never 404), while an
extend or release on a room that is not Occupied yields the Conflict
"not occupied" response regardless of the supplied code. -/
theorem authorization_precedence :
    (∀ (now : Nat) (rooms : List Room) (idIn extraIn : String) (rid e : Int)
       (bc : String) (r : Room) (t : Nat),
      jsParseInt idIn = some rid → bc ≠ "" → jsParseInt extraIn = some e → 0 < e →
      rooms.find? (idMatch (some rid)) = some r → r.status = "Occupied" →
      r.endTime = some t → now < t → r.bookingCode ≠ some bc →
      (extendHandler now (.ok rooms) idIn (some bc) extraIn).1 =
        { status := 403, message := "Invalid booking code" }) ∧
    (∀ (now : Nat) (rooms : List Room) (idIn extraIn : String) (rid e : Int)
       (bc : String) (r : Room),
      jsParseInt idIn = some rid → bc ≠ "" → jsParseInt extraIn = some e → 0 < e →
      rooms.find? (idMatch (some rid)) = some r → r.status ≠ "Occupied" →
      (extendHandler now (.ok rooms) idIn (some bc) extraIn).1 =
        { status := 400, message := "Room is not currently occupied" }) ∧
    (∀ (rooms : List Room) (idIn : String) (rid : Int) (bc : String) (r : Room),
      jsParseInt idIn = some rid → bc ≠ "" →
      rooms.find? (idMatch (some rid)) = some r → r.status = "Occupied" →
      r.bookingCode ≠ some bc →
      (releaseHandler (.ok rooms) idIn (some bc)).1 =
        { status := 403, message := "Invalid booking code" }) ∧
    (∀ (rooms : List Room) (idIn : String) (rid : Int) (bc : String) (r : Room),
      jsParseInt idIn = some rid → bc ≠ "" →
      rooms.find? (idMatch (some rid)) = some r → r.status ≠ "Occupied" →
      (releaseHandler (.ok rooms) idIn (some bc)).1 =
        { status := 400, message := "Room is not occupied" }) := by
  refine ⟨?_, ?_, ?_, ?_⟩
  · intro now rooms idIn extraIn rid e bc r t hid hbc hext he hfind hstatus hend hnow hcode
    have hfind2 : (expireRoomsIfNeeded now rooms).1.find? (idMatch (some rid)) = some r := by
      rw [expire_find?, hfind, Option.map_some', expireRoom_of_not_due now hend hnow]
    have htruthy : endTimeTruthy r = true := endTimeTruthy_of_pos hend (by omega)
    have he2 : ¬ e ≤ 0 := by omega
    simp [extendHandler, readRooms, hid, hext, hbc, he2, hfind2, hstatus, htruthy, hcode]
  · intro now rooms idIn extraIn rid e bc r hid hbc hext he hfind hstatus
    have hfind2 : (expireRoomsIfNeeded now rooms).1.find? (idMatch (some rid)) =
        some ((expireRoom now r).1) := by
      rw [expire_find?, hfind, Option.map_some']
    have hstat2 : ((expireRoom now r).1).status ≠ "Occupied" := by
      rcases expireRoom_cases now r with h | h
      · rw [h]
        exact hstatus
      · rw [h]
        show ("Available" : String) ≠ "Occupied"
        decide
    have he2 : ¬ e ≤ 0 := by omega
    simp [extendHandler, readRooms, hid, hext, hbc, he2, hfind2, hstat2]
  · intro rooms idIn rid bc r hid hbc hfind hstatus hcode
    simp [releaseHandler, readRooms, hid, hbc, hfind, hstatus, hcode]
  · intro rooms idIn rid bc r hid hbc hfind hstatus
    simp [releaseHandler, readRooms, hid, hbc, hfind, hstatus]

/-- C5 witness: wrong code on the concrete Occupied room gives 403 for
both extend (handled before expiry) and release; extend/release on the
concrete Available room give the 400 "not occupied" Conflict even with a
wrong code supplied. -/
theorem authorization_precedence_witness :
    (extendHandler 500 (.ok [staleRoom]) "1" (some "deadbeef") "5").1 =
      { status := 403, message := "Invalid booking code" } ∧
    (extendHandler 500 (.ok [availRoom]) "1" (some "deadbeef") "5").1 =
      { status := 400, message := "Room is not currently occupied" } ∧
    (releaseHandler (.ok [staleRoom]) "1" (some "deadbeef")).1 =
      { status := 403, message := "Invalid booking code" } ∧
    (releaseHandler (.ok [availRoom]) "1" (some "deadbeef")).1 =
      { status := 400, message := "Room is not occupied" } :=
  ⟨authorization_precedence.1 500 [staleRoom] "1" "5" 1 5 "deadbeef" staleRoom 1000
      (by decide) (by decide) (by decide) (by decide) (by decide) (by decide)
      (by decide) (by decide) (by decide),
   authorization_precedence.2.1 500 [availRoom] "1" "5" 1 5 "deadbeef" availRoom
      (by decide) (by decide) (by decide) (by decide) (by decide) (by decide),
   authorization_precedence.2.2.1 [staleRoom] "1" 1 "deadbeef" staleRoom
      (by decide) (by decide) (by decide) (by decide) (by decide),
   authorization_precedence.2.2.2 [availRoom] "1" 1 "deadbeef" availRoom
      (by decide) (by decide) (by decide) (by decide)⟩

lemma roomInv_clearRoom (r : Room) : roomInv (clearRoom r) := by
  simp [roomInv, clearRoom, occupiedAll, occupiedNone]

lemma roomInv_expireRoom (now : Nat) (r : Room) (h : roomInv r) :
    roomInv ((expireRoom now r).1) := by
  rcases expireRoom_cases now r with hc | hc
  · rw [hc]
    exact h
  · rw [hc]
    exact roomInv_clearRoom r

lemma roomInv_bookedRoom (now : Nat) (d : Int) (sn pu code : String) (r : Room) :
    roomInv (bookedRoom now d sn pu code r) := by
  simp [roomInv, bookedRoom, occupiedAll, occupiedNone]

lemma roomInv_extendedRoom (e : Int) (r : Room) (h : roomInv r)
    (hs : r.status = "Occupied") : roomInv (extendedRoom e r) := by
  have hall : occupiedAll r := (h.1).mp hs
  obtain ⟨hb, hp, -, hc⟩ := hall
  constructor
  · constructor
    · intro _
      exact ⟨hb, hp, by simp [extendedRoom], hc⟩
    · intro _
      exact hs
  · constructor
    · intro hav
      rw [show (extendedRoom e r).status = r.status from rfl, hs] at hav
      exact absurd hav (by decide)
    · intro hnone
      exact absurd hnone.2.2.1 (by simp [extendedRoom])

lemma setFirst_preserves {P : Room → Prop} (p : Room → Bool) (f : Room → Room) :
    ∀ (l : List Room) (r : Room), (∀ x ∈ l, P x) → l.find? p = some r → P (f r) →
      ∀ x ∈ setFirst p f l, P x := by
  intro l
  induction l with
  | nil =>
    intro r _ hf
    simp [List.find?] at hf
  | cons a as ih =>
    intro r hl hf hfr x hx
    unfold setFirst at hx
    by_cases hp : p a = true
    · rw [if_pos hp] at hx
      rw [List.find?_cons_of_pos _ hp] at hf
      injection hf with hf
      subst hf
      rcases List.mem_cons.mp hx with rfl | hx2
      · exact hfr
      · exact hl x (List.mem_cons_of_mem _ hx2)
    · rw [if_neg hp] at hx
      rw [List.find?_cons_of_neg _ (by simpa using hp)] at hf
      rcases List.mem_cons.mp hx with rfl | hx2
      · exact hl x (List.mem_cons_self _ _)
      · exact ih r (fun y hy => hl y (List.mem_cons_of_mem _ hy)) hf hfr x hx2

lemma storeInv_expireList (now : Nat) (l : List Room) (h : ∀ r ∈ l, roomInv r) :
    ∀ r ∈ (expireRoomsIfNeeded now l).1, roomInv r := by
  intro r hr
  have hr2 : r ∈ l.map (fun x => (expireRoom now x).1) := hr
  rw [List.mem_map] at hr2
  obtain ⟨a, ha, rfl⟩ := hr2
  exact roomInv_expireRoom now a (h a ha)

lemma storeInv_book (now : Nat) (bytes : List Nat) (m : Medium)
    (ridIn durIn : String) (sn pu : Option String) (hm : storeInv m) :
    storeInv (bookHandler now bytes m ridIn durIn sn pu).2 := by
  have hexp : ∀ r ∈ (expireRoomsIfNeeded now (readRooms m)).1, roomInv r :=
    storeInv_expireList now (readRooms m) hm
  have hm1 : storeInv (if (expireRoomsIfNeeded now (readRooms m)).2 then
      writeRooms (expireRoomsIfNeeded now (readRooms m)).1 else m) := by
    split
    · exact fun r hr => hexp r hr
    · exact hm
  unfold bookHandler
  cases h1 : jsParseInt ridIn with
  | none => exact hm
  | some rid =>
    cases h2 : jsParseInt durIn with
    | none => exact hm
    | some d =>
      dsimp only
      split
      · exact hm
      · cases sn with
        | none => exact hm
        | some s =>
          cases pu with
          | none => exact hm
          | some p =>
            dsimp only
            split
            · exact hm
            · cases heq : (expireRoomsIfNeeded now (readRooms m)).1.find?
                (idMatch (some rid)) with
              | none => exact hm1
              | some room =>
                dsimp only
                split
                · exact hm1
                · intro r hr
                  exact setFirst_preserves (idMatch (some rid))
                    (bookedRoom now d s p (bytesToHex bytes))
                    (expireRoomsIfNeeded now (readRooms m)).1 room hexp heq
                    (roomInv_bookedRoom now d s p (bytesToHex bytes) room) r hr

lemma storeInv_extend (now : Nat) (m : Medium) (idIn : String)
    (bcIn : Option String) (extraIn : String) (hm : storeInv m) :
    storeInv (extendHandler now m idIn bcIn extraIn).2 := by
  have hexp : ∀ r ∈ (expireRoomsIfNeeded now (readRooms m)).1, roomInv r :=
    storeInv_expireList now (readRooms m) hm
  have hm1 : storeInv (if (expireRoomsIfNeeded now (readRooms m)).2 then
      writeRooms (expireRoomsIfNeeded now (readRooms m)).1 else m) := by
    split
    · exact fun r hr => hexp r hr
    · exact hm
  unfold extendHandler
  cases bcIn with
  | none => exact hm
  | some bc =>
    dsimp only
    split
    · exact hm
    · cases h2 : jsParseInt extraIn with
      | none => exact hm
      | some e =>
        dsimp only
        split
        · exact hm
        · cases heq : (expireRoomsIfNeeded now (readRooms m)).1.find?
            (idMatch (jsParseInt idIn)) with
          | none => exact hm1
          | some room =>
            dsimp only
            split
            · exact hm1
            · rename_i hcond
              split
              · exact hm1
              · have hst : room.status = "Occupied" := by
                  by_contra hno
                  exact hcond (Or.inl hno)
                have hroom : roomInv room :=
                  hexp room (List.mem_of_find?_eq_some heq)
                intro r hr
                exact setFirst_preserves (idMatch (jsParseInt idIn))
                  (extendedRoom e) (expireRoomsIfNeeded now (readRooms m)).1 room
                  hexp heq (roomInv_extendedRoom e room hroom hst) r hr

lemma storeInv_release (m : Medium) (idIn : String) (bcIn : Option String)
    (hm : storeInv m) : storeInv (releaseHandler m idIn bcIn).2 := by
  unfold releaseHandler
  cases bcIn with
  | none => exact hm
  | some bc =>
    dsimp only
    split
    · exact hm
    · cases heq : (readRooms m).find? (idMatch (jsParseInt idIn)) with
      | none => exact hm
      | some room =>
        dsimp only
        split
        · exact hm
        · split
          · exact hm
          · intro r hr
            exact setFirst_preserves (idMatch (jsParseInt idIn)) clearRoom
              (readRooms m) room hm heq (roomInv_clearRoom room) r hr

lemma storeInv_schedule (now : Nat) (roomId : Int) (s : SysState)
    (hm : storeInv s.medium) : storeInv (scheduleAutoRelease now roomId s).medium := by
  unfold scheduleAutoRelease
  cases hget : mapGet roomId s.timerMap with
  | some h0 =>
    dsimp only
    cases heq : (readRooms s.medium).find? (idMatch (some roomId)) with
    | none => exact hm
    | some r =>
      dsimp only
      split
      · exact hm
      · split
        · intro x hx
          exact setFirst_preserves (idMatch (some roomId)) clearRoom
            (readRooms s.medium) r hm heq (roomInv_clearRoom r) x hx
        · exact hm
  | none =>
    dsimp only
    cases heq : (readRooms s.medium).find? (idMatch (some roomId)) with
    | none => exact hm
    | some r =>
      dsimp only
      split
      · exact hm
      · split
        · intro x hx
          exact setFirst_preserves (idMatch (some roomId)) clearRoom
            (readRooms s.medium) r hm heq (roomInv_clearRoom r) x hx
        · exact hm

lemma storeInv_fire (now : Nat) (t : PTimer) (s : SysState)
    (hm : storeInv s.medium) : storeInv (timerFire now t s).medium := by
  unfold timerFire
  dsimp only
  cases heq : (readRooms s.medium).find? (idMatch (some t.roomId)) with
  | none => exact hm
  | some cur =>
    dsimp only
    split
    · split
      · intro x hx
        exact setFirst_preserves (idMatch (some t.roomId)) clearRoom
          (readRooms s.medium) cur hm heq (roomInv_clearRoom cur) x hx
      · exact storeInv_schedule now t.roomId
          { s with live := s.live.filter (fun u => u.handle != t.handle) } hm
    · exact hm

/-- C2: the co-presence invariant (Occupied iff all four occupancy fields
present; Available iff none present) is preserved by every core
operation: lazy expiry, book, extend, release, (re)scheduling the
auto-release timer (including its immediate-expiry path), and the timer
callback firing. -/
theorem copresence_invariant_preserved :
    (∀ (now : Nat) (l : List Room), (∀ r ∈ l, roomInv r) →
      ∀ r ∈ (expireRoomsIfNeeded now l).1, roomInv r) ∧
    (∀ (now : Nat) (bytes : List Nat) (m : Medium) (ridIn durIn : String)
       (sn pu : Option String), storeInv m →
      storeInv (bookHandler now bytes m ridIn durIn sn pu).2) ∧
    (∀ (now : Nat) (m : Medium) (idIn : String) (bcIn : Option String)
       (extraIn : String), storeInv m →
      storeInv (extendHandler now m idIn bcIn extraIn).2) ∧
    (∀ (m : Medium) (idIn : String) (bcIn : Option String), storeInv m →
      storeInv (releaseHandler m idIn bcIn).2) ∧
    (∀ (now : Nat) (roomId : Int) (s : SysState), storeInv s.medium →
      storeInv (scheduleAutoRelease now roomId s).medium) ∧
    (∀ (now : Nat) (t : PTimer) (s : SysState), storeInv s.medium →
      storeInv (timerFire now t s).medium) :=
  ⟨storeInv_expireList,
   fun now bytes m ridIn durIn sn pu hm => storeInv_book now bytes m ridIn durIn sn pu hm,
   fun now m idIn bcIn extraIn hm => storeInv_extend now m idIn bcIn extraIn hm,
   fun m idIn bcIn hm => storeInv_release m idIn bcIn hm,
   fun now roomId s hm => storeInv_schedule now roomId s hm,
   fun now t s hm => storeInv_fire now t s hm⟩

/-- C2 witness: the concrete mixed store satisfies the invariant, and so
do the stores produced from it by a concrete book, extend, release, and
a timer firing. -/
theorem copresence_invariant_preserved_witness :
    storeInv mixedStore ∧
    storeInv (bookHandler 5 sampleBytes mixedStore "1" "30"
      (some "Al") (some "x")).2 ∧
    storeInv (extendHandler 5 mixedStore "2" (some "00ff00ff") "10").2 ∧
    storeInv (releaseHandler mixedStore "2" (some "00ff00ff")).2 ∧
    storeInv (timerFire 5 ⟨0, 2, 5⟩ ⟨mixedStore, [(2, 0)], [⟨0, 2, 5⟩], 1⟩).medium :=
  ⟨by decide,
   copresence_invariant_preserved.2.1 5 sampleBytes mixedStore "1" "30"
     (some "Al") (some "x") (by decide),
   copresence_invariant_preserved.2.2.1 5 mixedStore "2" (some "00ff00ff") "10"
     (by decide),
   copresence_invariant_preserved.2.2.2.1 mixedStore "2" (some "00ff00ff") (by decide),
   copresence_invariant_preserved.2.2.2.2.2 5 ⟨0, 2, 5⟩
     ⟨mixedStore, [(2, 0)], [⟨0, 2, 5⟩], 1⟩ (by decide)⟩

end GdZone
